import Mathlib

/-!
Verification of a STOMP 1.2 client library (Go): the wire frame codec
(`Encoder.Encode` / `Decoder.Decode`), the per-command frame builders
(`NewFrame`, `makeSendFrame`, `Transport.Send`), heartbeat negotiation
(`Connect`), the reader-loop dispatch (`Client.read`), the `Connect`
control flow, and transaction scoping (`Tx`).

Strings are modelled as byte lists (one byte per character, the ASCII
fragment the protocol headers use); Go's `map[string]string` is modelled
as an association list with Go-map assignment semantics; the byte stream
is a `List Nat` consumed functionally.
-/

namespace Stomp

/-- Byte sequence of an ASCII string literal. -/
def str (s : String) : List Nat := s.data.map Char.toNat

/-- The frame data model (`Frame` in frame.go): a command, a header map
and an optional body.  `Body = none` models a nil `io.ReadCloser`. -/
structure Frame where
  Command : List Nat
  Headers : List (List Nat × List Nat)
  Body : Option (List Nat)
deriving DecidableEq, Repr

/-- Go map assignment `hdrs[k] = v` on the association-list model:
replace the entry carrying the key if present, otherwise append. -/
def insertHeader : List (List Nat × List Nat) → List Nat → List Nat →
    List (List Nat × List Nat)
  | [], k, v => [(k, v)]
  | p :: ps, k, v => if p.1 = k then (k, v) :: ps else p :: insertHeader ps k v

/-- Go map lookup `hdrs[k]` together with its `ok` flag. -/
def lookupH : List (List Nat × List Nat) → List Nat → Option (List Nat)
  | [], _ => none
  | p :: ps, k => if p.1 = k then some p.2 else lookupH ps k

/-- Model of `bufio.Reader.ReadString('\n')`: the bytes up to and
including the first newline, paired with the rest of the stream; `none`
when the stream ends first (the read error aborts the decode). -/
def readLine : List Nat → Option (List Nat × List Nat)
  | [] => none
  | b :: bs =>
    if b = 10 then some ([10], bs)
    else (readLine bs).map (fun lr => (b :: lr.1, lr.2))

/-- Model of `bufio.Reader.ReadBytes(0)`: the bytes up to and including
the first NUL byte, paired with the rest of the stream; `none` when the
stream ends first. -/
def readToZero : List Nat → Option (List Nat × List Nat)
  | [] => none
  | b :: bs =>
    if b = 0 then some ([0], bs)
    else (readToZero bs).map (fun lr => (b :: lr.1, lr.2))

/-- Strip every leading byte belonging to the cutset. -/
def trimLeft (cs : List Nat) : List Nat → List Nat
  | [] => []
  | b :: bs => if b ∈ cs then trimLeft cs bs else b :: bs

/-- Model of `strings.Trim l cutset`: strip leading and trailing cutset
bytes. -/
def trimCut (cs : List Nat) (l : List Nat) : List Nat :=
  trimLeft cs ((trimLeft cs l.reverse).reverse)

/-- Model of `strings.Split l sep` for a one-byte separator. -/
def splitOn (sep : Nat) : List Nat → List (List Nat)
  | [] => [[]]
  | b :: bs =>
    if b = sep then [] :: splitOn sep bs
    else
      match splitOn sep bs with
      | [] => [[b]]
      | p :: ps => (b :: p) :: ps

/-- Model of `strconv.Itoa` (ASCII decimal digits) for the non-negative
lengths at hand. -/
def natToDigits (n : Nat) : List Nat := (Nat.toDigits 10 n).map Char.toNat

/-- Value of an ASCII decimal digit byte. -/
def digitVal (b : Nat) : Option Nat :=
  if 48 ≤ b ∧ b ≤ 57 then some (b - 48) else none

/-- Accumulate decimal digit bytes; fails on a non-digit. -/
def digitsToNat : List Nat → Nat → Option Nat
  | [], acc => some acc
  | b :: bs, acc =>
    match digitVal b with
    | some d => digitsToNat bs (acc * 10 + d)
    | none => none

/-- Model of `strconv.Atoi`: an optional sign followed by one or more
decimal digits. -/
def atoi (l : List Nat) : Option Int :=
  match l with
  | [] => none
  | 45 :: bs => if bs = [] then none else (digitsToNat bs 0).map (fun n => -(n : Int))
  | 43 :: bs => if bs = [] then none else (digitsToNat bs 0).map (fun n => (n : Int))
  | bs => (digitsToNat bs 0).map (fun n => (n : Int))

/-- The header lines written by `Encoder.Encode`, one `name:value\n`
line per entry, in the model's iteration order. -/
def encodeHeaders : List (List Nat × List Nat) → List Nat
  | [] => []
  | p :: ps => p.1 ++ 58 :: p.2 ++ 10 :: encodeHeaders ps

/-- Model of `Encoder.Encode`: a HEARTBEAT frame is a single newline;
otherwise the command line, the header lines, a blank line, the body
bytes (a nil body contributes nothing) and a NUL terminator. -/
def Encode (f : Frame) : List Nat :=
  if f.Command = str "HEARTBEAT" then [10]
  else f.Command ++ 10 :: (encodeHeaders f.Headers ++ 10 :: (f.Body.getD [] ++ [0]))

/-- The header-reading loop of `Decoder.Decode`, with explicit fuel (one
unit per line read; `Decode` supplies one more than the stream length,
which a loop consuming at least one byte per iteration can never
exhaust): read a line; a bare newline ends the loop; otherwise strip
newlines, split on the colon, fail unless that yields exactly two parts,
and assign the pair into the header map. -/
def readHeadersF : Nat → List (List Nat × List Nat) → List Nat →
    Option (List (List Nat × List Nat) × List Nat)
  | 0, _, _ => none
  | fuel + 1, acc, s =>
    match readLine s with
    | none => none
    | some (h, r) =>
      if h = [10] then some (acc, r)
      else
        match splitOn 58 (trimCut [10] h) with
        | [k, v] => readHeadersF fuel (insertHeader acc k v) r
        | _ => none

/-- Model of `Decoder.Decode`: read the command line (a bare newline is a
heartbeat and stops there, leaving nil headers and body), trim it of
`\r\n`, read the header lines; then the body: it starts as the one-byte
list `[0]` (`body := []byte{0}` in the source), is replaced by exactly
`content-length` bytes when that header is present (`io.LimitReader`
reads at most that many and never errors), and the bytes read up to and
including the NUL terminator are appended whenever they are not exactly
`[0]`.  Returns the decoded frame and the unconsumed stream. -/
def Decode (s : List Nat) : Option (Frame × List Nat) :=
  match readLine s with
  | none => none
  | some (c, r0) =>
    if c = [10] then
      some ({ Command := str "HEARTBEAT", Headers := [], Body := none }, r0)
    else
      match readHeadersF (r0.length + 1) [] r0 with
      | none => none
      | some (hdrs, r1) =>
        match
          (match lookupH hdrs (str "content-length") with
           | some lv =>
             match atoi lv with
             | none => none
             | some n => some (r1.take n.toNat, r1.drop n.toNat)
           | none => some (([0] : List Nat), r1))
        with
        | none => none
        | some (body0, r2) =>
          match readToZero r2 with
          | none => none
          | some (b, r3) =>
            some ({ Command := trimCut [13, 10] c,
                    Headers := hdrs,
                    Body := some (if b = [0] then body0 else body0 ++ b) }, r3)

/-- ASCII fragment of `strings.ToUpper`. -/
def toUpperB (l : List Nat) : List Nat :=
  l.map (fun b => if 97 ≤ b ∧ b ≤ 122 then b - 32 else b)

/-- ASCII fragment of `strings.ToLower`. -/
def toLowerB (l : List Nat) : List Nat :=
  l.map (fun b => if 65 ≤ b ∧ b ≤ 90 then b + 32 else b)

/-- Model of `NewFrame`: upper-case the command, start from an empty
header map, and normalize a nil body to an empty one (`&bytes.Buffer{}`
wrapped in a no-op closer), so a constructed frame's body is never
nil. -/
def NewFrame (cmd : List Nat) (body : Option (List Nat)) : Frame :=
  { Command := toUpperB cmd
    Headers := []
    Body := some (body.getD []) }

/-- The `forbidden` header-name set of transport.go. -/
def forbiddenList : List (List Nat) :=
  [str "destination", str "id", str "content-type", str "content-length",
   str "receipt", str "transaction"]

/-- The caller-header merge loop of `makeSendFrame`: lower-case each
name, drop the entry when the lowered name is forbidden, otherwise
assign it into the header map (in the model's iteration order). -/
def mergeHeaders : List (List Nat × List Nat) → List (List Nat × List Nat) →
    List (List Nat × List Nat)
  | acc, [] => acc
  | acc, p :: ps =>
    if toLowerB p.1 ∈ forbiddenList then mergeHeaders acc ps
    else mergeHeaders (insertHeader acc (toLowerB p.1) p.2) ps

/-- Model of `makeSendFrame`: a SEND frame via `NewFrame` with the
destination header; since `NewFrame` never leaves a nil body, the body
branch always runs and attaches `content-type` plus the computed
`content-length` (the sized-reader path and the buffering path both
yield the body's byte length and preserve its content); caller headers
are merged last.  The I/O errors of the buffering path cannot occur on
pure byte lists, so the model is total. -/
def makeSendFrame (dest : List Nat) (hdrs : Option (List (List Nat × List Nat)))
    (bodyType : List Nat) (body : Option (List Nat)) : Frame :=
  let f := NewFrame (str "SEND") body
  let hs0 := insertHeader f.Headers (str "destination") dest
  let hs1 :=
    match f.Body with
    | some bs =>
      insertHeader (insertHeader hs0 (str "content-type") bodyType)
        (str "content-length") (natToDigits bs.length)
    | none => hs0
  let hs2 :=
    match hdrs with
    | some hs => mergeHeaders hs1 hs
    | none => hs1
  { f with Headers := hs2 }

/-- The frame written by `Transport.Send`: the frame from
`makeSendFrame`, with the receipt header attached exactly when a receipt
id is supplied (a non-nil `receipt *string`). -/
def sendFrame (dest : List Nat) (hdrs : Option (List (List Nat × List Nat)))
    (bodyType : List Nat) (body : Option (List Nat))
    (receipt : Option (List Nat)) : Frame :=
  let f := makeSendFrame dest hdrs bodyType body
  match receipt with
  | some r => { f with Headers := insertHeader f.Headers (str "receipt") r }
  | none => f

/-- Model of `maxDuration` (config.go). -/
def maxDuration (a b : Nat) : Nat := if a > b then a else b

/-- The heartbeat negotiation inside `Connect` (client.go), over
intervals in milliseconds: without a `heart-beat` response header the
zero value `(0, 0)` stands; otherwise the header's pair `(s, r)` is the
server's send and receive request, and each direction is enabled only
when both sides request it, at the larger of the two rates. -/
def negotiateHeartbeat (confSend confRecv : Nat) (hdr : Option (Nat × Nat)) :
    Nat × Nat :=
  match hdr with
  | none => (0, 0)
  | some (s, r) =>
    (if confSend ≠ 0 ∧ r ≠ 0 then maxDuration confSend r else 0,
     if confRecv ≠ 0 ∧ s ≠ 0 then maxDuration confRecv s else 0)

/-- What one dispatch step of the reader loop `Client.read` does with a
decoded frame.  `processAbort` models the Go `panic(...)` calls: an
uncontrolled process termination, not a frame on the error channel. -/
inductive ReadAction where
  | ignore
  | resolveReceipt (id : List Nat)
  | forwardMessage
  | forwardErrorAndStop
  | processAbort
deriving DecidableEq, Repr

/-- The dispatch switch of `Client.read`: heartbeats are discarded;
RECEIPT resolves its `receipt-id`, but a missing id hits `panic`;
MESSAGE goes to the message channel; ERROR goes to the error channel and
stops the loop; any other command hits `panic`. -/
def readDispatch (f : Frame) : ReadAction :=
  if f.Command = str "HEARTBEAT" then .ignore
  else if f.Command = str "RECEIPT" then
    match lookupH f.Headers (str "receipt-id") with
    | some id => .resolveReceipt id
    | none => .processAbort
  else if f.Command = str "MESSAGE" then .forwardMessage
  else if f.Command = str "ERROR" then .forwardErrorAndStop
  else .processAbort

/-- Outcome flags for each fallible step `Connect` takes, abstracting
the values those steps produce. -/
structure ConnectSteps where
  dialOk : Bool
  tlsConfigured : Bool
  tlsOk : Bool
  encodeOk : Bool
  decodeResult : Option Frame
  readBodyOk : Bool
deriving DecidableEq, Repr

/-- How a run of `Connect` ends. -/
inductive ConnectOutcome where
  | connected
  | errDial
  | errTLS
  | errEncodeConnect
  | errDecodeResponse
  | errNoContentType
  | errBadContentType
  | errReadBody
  | errServerReported
deriving DecidableEq, Repr

/-- The control flow of `Connect` (client.go): each branch yields its
outcome paired with whether the underlying stream has been closed by the
return.  In source order: dial (nothing to close on failure); the
optional TLS handshake (failure or timeout closes the raw stream);
encoding the CONNECT frame (the source returns on failure WITHOUT
closing); decoding the response (failure closes); the non-CONNECTED
branch, whose `defer conn.Close()` covers the missing/bad content-type,
body-read and server-reported returns; success leaves the stream open
for the new client. -/
def connectRun (w : ConnectSteps) : ConnectOutcome × Bool :=
  if ¬ w.dialOk then (.errDial, false)
  else if w.tlsConfigured ∧ ¬ w.tlsOk then (.errTLS, true)
  else if ¬ w.encodeOk then (.errEncodeConnect, false)
  else
    match w.decodeResult with
    | none => (.errDecodeResponse, true)
    | some resp =>
      if resp.Command ≠ str "CONNECTED" then
        match lookupH resp.Headers (str "content-type") with
        | none => (.errNoContentType, true)
        | some ct =>
          if ct ≠ str "text/plain" then (.errBadContentType, true)
          else if ¬ w.readBodyOk then (.errReadBody, true)
          else (.errServerReported, true)
      else (.connected, false)

/-- Errors a transaction operation can surface: the terminal
`ErrTxDone`, or whatever error the underlying transport call produced
(abstracted by a code). -/
inductive StompError where
  | errTxDone
  | transportErr (code : Nat)
deriving DecidableEq, Repr

/-- Model of `Tx` (tx.go): the transaction id and the one-shot `done`
flag.  The registry and transport fields are abstracted away: each
operation below instead takes the result `res` the underlying transport
call would return. -/
structure Tx where
  tid : List Nat
  done : Bool
deriving DecidableEq, Repr

/-- Model of `Tx.Commit`: on a done transaction return `ErrTxDone`;
otherwise the deferred `t.done = true` runs whatever the transport
result is, which is returned unchanged. -/
def Tx.Commit (t : Tx) (res : Option StompError) : Tx × Option StompError :=
  if t.done then (t, some .errTxDone) else ({ t with done := true }, res)

/-- Model of `Tx.Abort`: a done transaction returns no error; otherwise
the deferred `t.done = true` runs and the transport result is
returned. -/
def Tx.Abort (t : Tx) (res : Option StompError) : Tx × Option StompError :=
  if t.done then (t, none) else ({ t with done := true }, res)

/-- Model of `Tx.Send`: `ErrTxDone` when done, otherwise the transport
result; `done` is not modified. -/
def Tx.Send (t : Tx) (res : Option StompError) : Tx × Option StompError :=
  if t.done then (t, some .errTxDone) else (t, res)

/-- Model of `Tx.Ack`: `ErrTxDone` when done, otherwise the transport
result; `done` is not modified. -/
def Tx.Ack (t : Tx) (res : Option StompError) : Tx × Option StompError :=
  if t.done then (t, some .errTxDone) else (t, res)

/-- Model of `Tx.Nack`: `ErrTxDone` when done, otherwise the transport
result; `done` is not modified. -/
def Tx.Nack (t : Tx) (res : Option StompError) : Tx × Option StompError :=
  if t.done then (t, some .errTxDone) else (t, res)

theorem lookupH_insert_self (hs : List (List Nat × List Nat)) (k v : List Nat) :
    lookupH (insertHeader hs k v) k = some v := by
  induction hs with
  | nil => simp [insertHeader, lookupH]
  | cons p ps ih =>
    by_cases h : p.1 = k
    · simp [insertHeader, lookupH, h]
    · simp [insertHeader, lookupH, h, ih]

theorem lookupH_insert_other (hs : List (List Nat × List Nat)) (k k' v : List Nat)
    (hne : k' ≠ k) : lookupH (insertHeader hs k' v) k = lookupH hs k := by
  induction hs with
  | nil => simp [insertHeader, lookupH, hne]
  | cons p ps ih =>
    by_cases h : p.1 = k'
    · simp [insertHeader, lookupH, h, hne]
    · simp [insertHeader, lookupH, h, ih]

/-- Merging caller headers does not touch a key that every entry either
fails to reach (its lowered name differs) or cannot reach (its lowered
name is forbidden, so the entry is dropped). -/
theorem lookupH_mergeHeaders_skip (hs : List (List Nat × List Nat)) :
    ∀ acc k, (∀ p ∈ hs, toLowerB p.1 ∈ forbiddenList ∨ toLowerB p.1 ≠ k) →
      lookupH (mergeHeaders acc hs) k = lookupH acc k := by
  induction hs with
  | nil => intro acc k _; rfl
  | cons p ps ih =>
    intro acc k h
    have hp := h p (List.mem_cons_self p ps)
    by_cases hf : toLowerB p.1 ∈ forbiddenList
    · simp only [mergeHeaders, if_pos hf]
      exact ih acc k (fun q hq => h q (List.mem_cons_of_mem _ hq))
    · have hne : toLowerB p.1 ≠ k := hp.resolve_left hf
      simp only [mergeHeaders, if_neg hf]
      rw [ih _ k (fun q hq => h q (List.mem_cons_of_mem _ hq))]
      exact lookupH_insert_other acc k (toLowerB p.1) p.2 hne

/-- Merging caller headers cannot introduce or change a forbidden key. -/
theorem lookupH_mergeHeaders_forbidden (hs acc : List (List Nat × List Nat))
    (k : List Nat) (hk : k ∈ forbiddenList) :
    lookupH (mergeHeaders acc hs) k = lookupH acc k := by
  refine lookupH_mergeHeaders_skip hs acc k (fun q _ => ?_)
  by_cases hf : toLowerB q.1 ∈ forbiddenList
  · exact Or.inl hf
  · exact Or.inr (fun he => hf (by rw [he]; exact hk))

/-- A caller entry whose lowered name is not forbidden ends up in the
merged headers under its lowered name, provided the lowered caller names
are pairwise distinct (Go map iteration order is unspecified, so with a
lowered-name collision the survivor is unspecified). -/
theorem lookupH_mergeHeaders_mem (hs : List (List Nat × List Nat)) :
    ∀ acc k v, (k, v) ∈ hs → toLowerB k ∉ forbiddenList →
      (hs.map (fun p => toLowerB p.1)).Nodup →
      lookupH (mergeHeaders acc hs) (toLowerB k) = some v := by
  induction hs with
  | nil => intro acc k v hmem _ _; cases hmem
  | cons p ps ih =>
    intro acc k v hmem hnf hnd
    rw [List.map_cons, List.nodup_cons] at hnd
    rcases List.mem_cons.mp hmem with heq | htail
    · obtain rfl : p = (k, v) := heq.symm
      simp only [mergeHeaders, if_neg hnf]
      rw [lookupH_mergeHeaders_skip ps _ _ (fun q hq => Or.inr (fun he => hnd.1 (by
        rw [← he]; exact List.mem_map_of_mem (fun r => toLowerB r.1) hq)))]
      exact lookupH_insert_self acc (toLowerB k) v
    · by_cases hf : toLowerB p.1 ∈ forbiddenList
      · simp only [mergeHeaders, if_pos hf]
        exact ih acc k v htail hnf hnd.2
      · simp only [mergeHeaders, if_neg hf]
        exact ih _ k v htail hnf hnd.2

/-- Forbidden caller entries contribute nothing: the merge of a caller
header list equals the merge of its non-forbidden entries. -/
theorem mergeHeaders_filter (hs : List (List Nat × List Nat)) :
    ∀ acc, mergeHeaders acc hs
      = mergeHeaders acc
          (hs.filter (fun p => decide (toLowerB p.1 ∉ forbiddenList))) := by
  induction hs with
  | nil => intro acc; rfl
  | cons p ps ih =>
    intro acc
    by_cases hf : toLowerB p.1 ∈ forbiddenList
    · simp [mergeHeaders, List.filter_cons, hf, ih]
    · simp [mergeHeaders, List.filter_cons, hf, ih]

/-- The header map `makeSendFrame` builds before merging caller
headers: destination, then content-type, then the computed
content-length (the body branch always runs because `NewFrame`
normalizes a nil body to an empty one). -/
theorem makeSendFrame_base_headers (dest bt : List Nat) (body : Option (List Nat)) :
    (makeSendFrame dest none bt body).Headers
      = insertHeader (insertHeader (insertHeader [] (str "destination") dest)
          (str "content-type") bt) (str "content-length")
          (natToDigits (body.getD []).length) := rfl

/-- With caller headers supplied, `makeSendFrame` merges them onto the
base header map. -/
theorem makeSendFrame_merge_headers (dest bt : List Nat)
    (hs : List (List Nat × List Nat)) (body : Option (List Nat)) :
    (makeSendFrame dest (some hs) bt body).Headers
      = mergeHeaders (makeSendFrame dest none bt body).Headers hs := rfl

/-- Lookups on the base header map of `makeSendFrame`. -/
theorem base_lookups (dest bt : List Nat) (body : Option (List Nat)) :
    lookupH (makeSendFrame dest none bt body).Headers (str "content-type") = some bt ∧
    lookupH (makeSendFrame dest none bt body).Headers (str "content-length")
      = some (natToDigits (body.getD []).length) ∧
    lookupH (makeSendFrame dest none bt body).Headers (str "receipt") = none := by
  rw [makeSendFrame_base_headers]
  refine ⟨?_, lookupH_insert_self .., ?_⟩
  · rw [lookupH_insert_other _ _ _ _ (by decide)]
    exact lookupH_insert_self ..
  · rw [lookupH_insert_other _ _ _ _ (by decide),
      lookupH_insert_other _ _ _ _ (by decide),
      lookupH_insert_other _ _ _ _ (by decide)]
    rfl

/-- Lookups on the full header map of `makeSendFrame`, caller headers
merged: content-type and the computed content-length survive the merge
untouched and no receipt header appears. -/
theorem makeSendFrame_lookups (dest bt : List Nat)
    (hdrs : Option (List (List Nat × List Nat))) (body : Option (List Nat)) :
    lookupH (makeSendFrame dest hdrs bt body).Headers (str "content-type") = some bt ∧
    lookupH (makeSendFrame dest hdrs bt body).Headers (str "content-length")
      = some (natToDigits (body.getD []).length) ∧
    lookupH (makeSendFrame dest hdrs bt body).Headers (str "receipt") = none := by
  obtain ⟨h1, h2, h3⟩ := base_lookups dest bt body
  cases hdrs with
  | none => exact ⟨h1, h2, h3⟩
  | some hs =>
    rw [makeSendFrame_merge_headers]
    rw [lookupH_mergeHeaders_forbidden hs _ _ (by decide),
      lookupH_mergeHeaders_forbidden hs _ _ (by decide),
      lookupH_mergeHeaders_forbidden hs _ _ (by decide)]
    exact ⟨h1, h2, h3⟩

/-- C4: the negotiated send interval is max(client requested send,
server requested receive) when both are nonzero and zero (disabled)
otherwise; the negotiated receive interval is max(client requested
receive, server requested send) when both are nonzero and zero
otherwise; an absent server header acts as `0,0`; and the concrete
instance client send=1000ms, recv=2000ms against server `"500,3000"`
yields effective send 3000ms and effective receive 2000ms. -/
theorem negotiated_intervals (cs cr : Nat) (hdr : Option (Nat × Nat)) :
    (negotiateHeartbeat cs cr hdr).1 =
      (if cs ≠ 0 ∧ (hdr.getD (0, 0)).2 ≠ 0 then max cs (hdr.getD (0, 0)).2 else 0) ∧
    (negotiateHeartbeat cs cr hdr).2 =
      (if cr ≠ 0 ∧ (hdr.getD (0, 0)).1 ≠ 0 then max cr (hdr.getD (0, 0)).1 else 0) ∧
    negotiateHeartbeat 1000 2000 (some (500, 3000)) = (3000, 2000) := by
  refine ⟨?_, ?_, by decide⟩ <;>
  · cases hdr with
    | none => simp [negotiateHeartbeat]
    | some p =>
      obtain ⟨s, r⟩ := p
      simp only [negotiateHeartbeat, maxDuration, Option.getD]
      split
      · split <;> omega
      · rfl

/-- C7: on a transaction whose done flag is set, Send, Ack, Nack and
Commit return the terminal-transaction error and Abort returns no
error; and after any Commit (whether or not the transport call
succeeded) the done flag is set, so a failed commit cannot be
retried. -/
theorem tx_done_semantics (t : Tx) (res : Option StompError) :
    (t.done = true →
      (t.Send res).2 = some .errTxDone ∧
      (t.Ack res).2 = some .errTxDone ∧
      (t.Nack res).2 = some .errTxDone ∧
      (t.Commit res).2 = some .errTxDone ∧
      (t.Abort res).2 = none) ∧
    ((t.Commit res).1).done = true := by
  constructor
  · intro h
    simp [Tx.Send, Tx.Ack, Tx.Nack, Tx.Commit, Tx.Abort, h]
  · by_cases h : t.done <;> simp [Tx.Commit, h]

/-- Witness for `tx_done_semantics` at a concrete done transaction. -/
theorem tx_done_semantics_witness :
    ((Tx.Send ⟨str "t1", true⟩ none).2 = some .errTxDone ∧
      (Tx.Ack ⟨str "t1", true⟩ none).2 = some .errTxDone ∧
      (Tx.Nack ⟨str "t1", true⟩ none).2 = some .errTxDone ∧
      (Tx.Commit ⟨str "t1", true⟩ none).2 = some .errTxDone ∧
      (Tx.Abort ⟨str "t1", true⟩ none).2 = none) ∧
    ((Tx.Commit ⟨str "t1", true⟩ none).1).done = true := by
  have h := tx_done_semantics ⟨str "t1", true⟩ none
  exact ⟨h.1 rfl, h.2⟩

/-- C10: the frame constructor upper-cases the command, a nil body is
replaced by an empty one (the body is never absent), and a constructed
frame cannot distinguish a missing body from an empty body. -/
theorem newFrame_normalizes (cmd : List Nat) (body : Option (List Nat)) :
    (NewFrame cmd body).Command = toUpperB cmd ∧
    (NewFrame cmd body).Body = some (body.getD []) ∧
    NewFrame cmd none = NewFrame cmd (some []) := by
  exact ⟨rfl, rfl, rfl⟩

/-- C5: the reader loop reacts to a RECEIPT frame lacking its
`receipt-id` header, and to a frame with an unrecognized command, with a
process abort (`panic`), not with the error path; only an ERROR frame
takes the error-channel path. -/
theorem read_dispatch_aborts_process :
    readDispatch { Command := str "RECEIPT", Headers := [], Body := none }
      = .processAbort ∧
    readDispatch { Command := str "BOGUS", Headers := [], Body := none }
      = .processAbort ∧
    readDispatch { Command := str "ERROR", Headers := [], Body := none }
      = .forwardErrorAndStop := by
  decide

/-- C6: when encoding the CONNECT frame fails after the stream is open,
`Connect` returns the failure with the stream still open (no
`conn.Close()` on that path), while the TLS-failure, decode-failure and
non-CONNECTED paths do close the stream. -/
theorem connect_encode_failure_stream_left_open :
    connectRun { dialOk := true, tlsConfigured := false, tlsOk := true,
                 encodeOk := false, decodeResult := none, readBodyOk := true }
      = (.errEncodeConnect, false) ∧
    connectRun { dialOk := true, tlsConfigured := true, tlsOk := false,
                 encodeOk := true, decodeResult := none, readBodyOk := true }
      = (.errTLS, true) ∧
    connectRun { dialOk := true, tlsConfigured := false, tlsOk := true,
                 encodeOk := true, decodeResult := none, readBodyOk := true }
      = (.errDecodeResponse, true) ∧
    connectRun { dialOk := true, tlsConfigured := false, tlsOk := true,
                 encodeOk := true,
                 decodeResult := some { Command := str "ERROR",
                                        Headers := [(str "content-type", str "text/plain")],
                                        Body := some (str "oops") },
                 readBodyOk := true }
      = (.errServerReported, true) := by
  decide

/-- C1: decoding the encoding of a well-formed frame that carries no
content-length header does not reproduce the body bytes: the empty body
comes back as the one NUL byte `[0]`, and the body `"hi"` comes back
wrapped in NUL bytes (the decoder initializes the body as `[0]` and
appends the `ReadBytes(0)` result including the terminator). -/
theorem decode_encode_without_content_length :
    Decode (Encode { Command := str "SEND", Headers := [], Body := some [] })
      = some ({ Command := str "SEND", Headers := [], Body := some [0] }, []) ∧
    Decode (Encode { Command := str "SEND", Headers := [], Body := some (str "hi") })
      = some ({ Command := str "SEND", Headers := [],
                Body := some ([0] ++ str "hi" ++ [0]) }, []) ∧
    some ([] : List Nat) ≠ some [0] := by
  decide

/-- C2: on the stream `MESSAGE\n\nhi\0` (no content-length) the decoded
body is `0x00 hi 0x00`, not `hi`; and on
`MESSAGE\ncontent-length:1\n\nhiX\0` the decoded body is `h iX 0x00`,
i.e. the extra bytes are appended together with the terminator byte,
not excluding it. -/
theorem decode_body_diverges :
    Decode (str "MESSAGE" ++ [10, 10] ++ str "hi" ++ [0])
      = some ({ Command := str "MESSAGE", Headers := [],
                Body := some ([0] ++ str "hi" ++ [0]) }, []) ∧
    Decode (str "MESSAGE" ++ [10] ++ str "content-length:1" ++ [10, 10]
              ++ str "hiX" ++ [0])
      = some ({ Command := str "MESSAGE",
                Headers := [(str "content-length", str "1")],
                Body := some (str "h" ++ str "iX" ++ [0]) }, []) := by
  decide

theorem frame_eq_of_fields {f g : Frame} (hc : f.Command = g.Command)
    (hh : f.Headers = g.Headers) (hb : f.Body = g.Body) : f = g := by
  cases f; cases g; cases hc; cases hh; cases hb; rfl

/-- C3 counterexample: a SEND frame built with NO caller-supplied body
(nil reader) still carries the content-type header (and a
content-length of 0), because `NewFrame` normalizes the nil body and
the builder's body-presence test always succeeds. -/
theorem sendFrame_content_type_without_body :
    lookupH (sendFrame (str "/q") none (str "text/plain") none none).Headers
        (str "content-type") = some (str "text/plain") ∧
    lookupH (sendFrame (str "/q") none (str "text/plain") none none).Headers
        (str "content-length") = some (str "0") := by
  decide

/-- C3 amended: in every built SEND frame the content-type header is
present (with the supplied body type) whether or not the caller supplied
a body, since a nil body is normalized to an empty one; and the receipt
header is present if and only if the caller supplied a receipt id. -/
theorem sendFrame_content_type_and_receipt (dest bt : List Nat)
    (hdrs : Option (List (List Nat × List Nat))) (body : Option (List Nat))
    (receipt : Option (List Nat)) :
    lookupH (sendFrame dest hdrs bt body receipt).Headers (str "content-type")
      = some bt ∧
    lookupH (sendFrame dest hdrs bt body receipt).Headers (str "receipt")
      = receipt := by
  obtain ⟨h1, _, h3⟩ := makeSendFrame_lookups dest bt hdrs body
  cases receipt with
  | none => exact ⟨h1, h3⟩
  | some r =>
    constructor
    · show lookupH (insertHeader (makeSendFrame dest hdrs bt body).Headers
          (str "receipt") r) (str "content-type") = some bt
      rw [lookupH_insert_other _ _ _ _ (by decide)]
      exact h1
    · show lookupH (insertHeader (makeSendFrame dest hdrs bt body).Headers
          (str "receipt") r) (str "receipt") = some r
      exact lookupH_insert_self ..

/-- C8: every caller header whose lowered name is reserved (destination,
id, content-type, content-length, receipt, transaction) is dropped — the
built frame equals the one built from the non-reserved entries alone; a
caller header named content-length in particular is replaced by the
computed byte length of the body; and every other caller header is
merged into the frame (under its lowered name; the lowered caller names
are assumed pairwise distinct since Go map iteration order is
unspecified under a collision). -/
theorem makeSendFrame_header_policy (dest bt bs : List Nat)
    (hs : List (List Nat × List Nat)) :
    makeSendFrame dest (some hs) bt (some bs)
      = makeSendFrame dest
          (some (hs.filter (fun p => decide (toLowerB p.1 ∉ forbiddenList))))
          bt (some bs) ∧
    lookupH (makeSendFrame dest (some hs) bt (some bs)).Headers
        (str "content-length") = some (natToDigits bs.length) ∧
    (∀ k v, (k, v) ∈ hs → toLowerB k ∉ forbiddenList →
      (hs.map (fun p => toLowerB p.1)).Nodup →
      lookupH (makeSendFrame dest (some hs) bt (some bs)).Headers (toLowerB k)
        = some v) := by
  refine ⟨?_, ?_, ?_⟩
  · refine frame_eq_of_fields rfl ?_ rfl
    rw [makeSendFrame_merge_headers, makeSendFrame_merge_headers]
    exact mergeHeaders_filter hs _
  · exact (makeSendFrame_lookups dest bt (some hs) (some bs)).2.1
  · intro k v hmem hnf hnd
    rw [makeSendFrame_merge_headers]
    exact lookupH_mergeHeaders_mem hs _ k v hmem hnf hnd

/-- Witness for `makeSendFrame_header_policy` at a concrete caller
header list containing a reserved name (`Content-Length`) and a custom
one. -/
theorem makeSendFrame_header_policy_witness :
    makeSendFrame (str "/q")
        (some [(str "Content-Length", str "99"), (str "Custom", str "7")])
        (str "text/plain") (some (str "hi"))
      = makeSendFrame (str "/q")
          (some ([(str "Content-Length", str "99"), (str "Custom", str "7")].filter
            (fun p => decide (toLowerB p.1 ∉ forbiddenList))))
          (str "text/plain") (some (str "hi")) ∧
    lookupH (makeSendFrame (str "/q")
        (some [(str "Content-Length", str "99"), (str "Custom", str "7")])
        (str "text/plain") (some (str "hi"))).Headers (str "content-length")
      = some (natToDigits (str "hi").length) ∧
    lookupH (makeSendFrame (str "/q")
        (some [(str "Content-Length", str "99"), (str "Custom", str "7")])
        (str "text/plain") (some (str "hi"))).Headers (toLowerB (str "Custom"))
      = some (str "7") := by
  have h := makeSendFrame_header_policy (str "/q") (str "text/plain") (str "hi")
    [(str "Content-Length", str "99"), (str "Custom", str "7")]
  exact ⟨h.1, h.2.1, h.2.2 (str "Custom") (str "7") (by decide) (by decide) (by decide)⟩

end Stomp
